import Mathlib

/-!
Verification of the PagePilotAI generation core against its specification.

The development shallowly embeds the relevant TypeScript modules:

* `validateGeneratedScript` (response validator)
* `truncate`, `normaliseHistory` (request builder)
* `parseScriptPayload` (model transport output parsing, with a JSON model)
* `JobManager` (per-key single-flight job supervisor, as a state machine)
* `applyPreviewScript` (preview applicator, as explicit state)

JavaScript strings are modelled as Lean `String` (lengths count characters
rather than UTF-16 code units; identical for the inputs considered here).
The JavaScript primitives `trim`, `slice` and `join` are modelled by the
structurally recursive `jsTrim`, `jsTake` and `joinNewline` below so that
all definitions evaluate inside the kernel.
-/

set_option autoImplicit false

namespace PagePilot

/-! ## JavaScript string primitives -/

/-- JS `String.prototype.trim`: strip leading and trailing whitespace. -/
def jsTrim (s : String) : String :=
  ⟨((s.data.dropWhile Char.isWhitespace).reverse.dropWhile Char.isWhitespace).reverse⟩

/-- JS `String.prototype.slice(0, n)`: the first `n` characters. -/
def jsTake (s : String) (n : Nat) : String :=
  ⟨s.data.take n⟩

/-- JS `Array.prototype.join('\n')`. -/
def joinNewline : List String → String
  | [] => ""
  | [x] => x
  | x :: y :: rest => x ++ "\n" ++ joinNewline (y :: rest)

/-! ## Shared data model (src/shared/types.ts) -/

/-- `GeneratedScriptPayload` from `src/shared/types.ts`: `jsCode: string`,
optional `cssCode`, optional `urlMatchPattern`. -/
structure GeneratedScriptPayload where
  jsCode : String
  cssCode : Option String := none
  urlMatchPattern : Option String := none
  deriving DecidableEq, Repr

/-! ## Response validator (scriptValidator) -/

/-- `ScriptValidationResult` from the validator module. -/
structure ScriptValidationResult where
  ok : Bool
  script : Option GeneratedScriptPayload
  errors : List String
  warnings : List String
  deriving DecidableEq, Repr

def MAX_JS_LENGTH : Nat := 8000

def MAX_CSS_LENGTH : Nat := 4000

/-- Case folding used to model the `/i` regex flag. -/
def lowerChars (s : String) : List Char := s.data.map Char.toLower

/-- Does `hay` start with `needle` (as char lists)? -/
def startsWithChars : List Char → List Char → Bool
  | _, [] => true
  | [], _ :: _ => false
  | h :: hs, n :: ns => h = n && startsWithChars hs ns

/-- Match for the regex `fetch\s*\(` at the head of `l`. -/
def fetchCallAt (l : List Char) : Bool :=
  startsWithChars l ("fetch".data) &&
    startsWithChars ((l.drop 5).dropWhile Char.isWhitespace) ("(".data)

/-- Does any suffix of `l` satisfy `p`? Implements an unanchored regex test. -/
def anySuffix (p : List Char → Bool) : List Char → Bool
  | [] => p []
  | c :: rest => p (c :: rest) || anySuffix p rest

/-- `containsDisallowedPatterns` from the validator: three warn-only regex
tests (`fetch\s*\(`, `XMLHttpRequest`, `chrome\.`, all case-insensitive). -/
def containsDisallowedPatterns (code : String) : List String :=
  let l := lowerChars code
  (if anySuffix fetchCallAt l then
    ["Uses fetch(); ensure network access is necessary."] else []) ++
  (if anySuffix (fun s => startsWithChars s ("xmlhttprequest".data)) l then
    ["Uses XMLHttpRequest; consider avoiding external calls."] else []) ++
  (if anySuffix (fun s => startsWithChars s ("chrome.".data)) l then
    ["Touches chrome.* APIs; ensure permissions allow this."] else [])

/-- `validateGeneratedScript` from the validator module. `jsCode` is trimmed;
`cssCode`/`urlMatchPattern` are trimmed when present (the TypeScript
`typeof x === 'string'` guard corresponds to `Option.map`). A missing/blank
`jsCode` is the single fatal error; all other findings are warnings. -/
def validateGeneratedScript (payload : GeneratedScriptPayload) : ScriptValidationResult :=
  let jsCode := jsTrim payload.jsCode
  let cssCode := payload.cssCode.map jsTrim
  let urlMatchPattern := payload.urlMatchPattern.map jsTrim
  let errors : List String :=
    if jsCode = "" then ["Generated response did not include JavaScript to execute."] else []
  let warnings : List String :=
    (if jsCode = "" then []
     else
       (if jsCode.length > MAX_JS_LENGTH then
         ["JavaScript exceeds 8000 characters; consider simplifying."] else []) ++
       containsDisallowedPatterns jsCode) ++
    (match cssCode with
     | some c => if c ≠ "" ∧ c.length > MAX_CSS_LENGTH then
         ["CSS exceeds 4000 characters; consider simplifying."] else []
     | none => [])
  { ok := errors.isEmpty
    script := if errors.isEmpty then some ⟨jsCode, cssCode, urlMatchPattern⟩ else none
    errors := errors
    warnings := warnings }

/-! ## Request builder (promptBuilder) -/

def DEFAULT_DOM_SNIPPET_LIMIT : Nat := 4000

/-- The fixed truncation marker appended by `truncate`
(a newline followed by an HTML comment). -/
def TRUNCATION_MARKER : String := "\n<!-- truncated -->"

/-- `truncate` from the prompt builder: returns the value unchanged when it is
empty (falsy) or within the limit, otherwise the first `limit` characters
followed by the truncation marker. -/
def truncate (value : String) (limit : Nat := DEFAULT_DOM_SNIPPET_LIMIT) : String :=
  if value = "" ∨ value.length ≤ limit then value
  else jsTake value limit ++ TRUNCATION_MARKER

/-- `AiChatRole` from `src/shared/types.ts`. -/
inductive AiChatRole where
  | user
  | assistant
  | system
  deriving DecidableEq, Repr

/-- `AiChatMessage`, restricted to the fields the prompt builder reads
(`role`, `content`, `script`, `error`); the remaining metadata fields are
never consulted by `normaliseHistory`. -/
structure AiChatMessage where
  role : AiChatRole
  content : String
  script : Option GeneratedScriptPayload := none
  error : Option String := none
  deriving DecidableEq, Repr

/-- `message.role === 'assistant' || message.role === 'user'`. -/
def isConversant (m : AiChatMessage) : Bool :=
  match m.role with
  | .assistant => true
  | .user => true
  | .system => false

/-- JS `array.slice(-n)`: the last `n` elements (all of them when shorter). -/
def takeLast {α : Type} (l : List α) (n : Nat) : List α :=
  l.drop (l.length - n)

/-- Rendering of one qualifying history turn: `"<Role>: <content>"`, plus an
optional shortened code-snippet line and an optional error line. -/
def renderHistoryTurn (m : AiChatMessage) : String :=
  let roleName := match m.role with
    | .assistant => "Assistant"
    | _ => "User"
  let parts : List String := [roleName ++ ": " ++ jsTrim m.content]
  let parts := parts ++
    (match m.script with
     | some sc =>
       if jsTrim sc.jsCode = "" then []
       else
         [("Suggested JS: " ++
           (if sc.jsCode.length > 240 then jsTake sc.jsCode 240 ++ "…" else sc.jsCode))]
     | none => [])
  let parts := parts ++
    (match m.error with
     | some e => if e = "" then [] else ["Error: " ++ e]
     | none => [])
  joinNewline parts

/-- `normaliseHistory` from the prompt builder: keep conversant turns, keep
the last 8, render each; `undefined` when nothing qualifies. -/
def normaliseHistory (conversation : Option (List AiChatMessage)) : Option (List String) :=
  match conversation with
  | none => none
  | some conv =>
    if conv.isEmpty then none
    else
      let history := (takeLast (conv.filter isConversant) 8).map renderHistoryTurn
      if history.isEmpty then none else some history

/-! ## Model transport output parsing (modelClient, `parseScriptPayload`)

`JSON.parse` is an external primitive of the JavaScript runtime; it is
modelled by `jsonParse` below, a standard RFC 8259 recursive-descent parser
over the characters of the input.  JavaScript numbers are kept as their
source lexeme (the parsed payload logic only ever asks whether a value is a
string, so numeric magnitude is irrelevant).  `\uXXXX` escapes are mapped
through `Char.ofNat`. -/

/-- A JavaScript value as produced by `JSON.parse`. -/
inductive JsValue where
  | str (s : String)
  | num (lexeme : String)
  | bool (b : Bool)
  | null
  | arr (elems : List JsValue)
  | obj (fields : List (String × JsValue))

/-- The character `{`. -/
def lbrace : Char := Char.ofNat 123

/-- The character `}`. -/
def rbrace : Char := Char.ofNat 125

/-- JSON insignificant whitespace. -/
def jsonWs (c : Char) : Bool :=
  c = ' ' || c = '\t' || c = '\n' || c = '\r'

def skipWs : List Char → List Char
  | [] => []
  | c :: rest => if jsonWs c then skipWs rest else c :: rest

/-- Hex digit value. -/
def hexVal (c : Char) : Option Nat :=
  if '0' ≤ c ∧ c ≤ '9' then some (c.toNat - '0'.toNat)
  else if 'a' ≤ c ∧ c ≤ 'f' then some (c.toNat - 'a'.toNat + 10)
  else if 'A' ≤ c ∧ c ≤ 'F' then some (c.toNat - 'A'.toNat + 10)
  else none

/-- Parse the body of a JSON string after the opening quote, accumulating
characters until the closing quote. -/
def parseStringBody : Nat → List Char → List Char → Option (String × List Char)
  | 0, _, _ => none
  | _, [], _ => none
  | fuel + 1, c :: rest, acc =>
    if c = '"' then some (⟨acc.reverse⟩, rest)
    else if c = '\\' then
      match rest with
      | [] => none
      | e :: rest2 =>
        if e = '"' then parseStringBody fuel rest2 ('"' :: acc)
        else if e = '\\' then parseStringBody fuel rest2 ('\\' :: acc)
        else if e = '/' then parseStringBody fuel rest2 ('/' :: acc)
        else if e = 'b' then parseStringBody fuel rest2 (Char.ofNat 8 :: acc)
        else if e = 'f' then parseStringBody fuel rest2 (Char.ofNat 12 :: acc)
        else if e = 'n' then parseStringBody fuel rest2 ('\n' :: acc)
        else if e = 'r' then parseStringBody fuel rest2 ('\r' :: acc)
        else if e = 't' then parseStringBody fuel rest2 ('\t' :: acc)
        else if e = 'u' then
          match rest2 with
          | h1 :: h2 :: h3 :: h4 :: rest3 =>
            match hexVal h1, hexVal h2, hexVal h3, hexVal h4 with
            | some a, some b, some c3, some d =>
              parseStringBody fuel rest3
                (Char.ofNat (((a * 16 + b) * 16 + c3) * 16 + d) :: acc)
            | _, _, _, _ => none
          | _ => none
        else none
    else if c.toNat < 32 then none
    else parseStringBody fuel rest (c :: acc)

def isDigit (c : Char) : Bool := '0' ≤ c && c ≤ '9'

/-- Parse a JSON number token, returning its lexeme. -/
def parseNumberToken (cs : List Char) : Option (String × List Char) :=
  let (sign, cs1) := match cs with
    | '-' :: rest => (['-'], rest)
    | _ => ([], cs)
  let intPart := cs1.takeWhile isDigit
  let cs2 := cs1.dropWhile isDigit
  let intOk : Bool :=
    match intPart with
    | [] => false
    | ['0'] => true
    | d :: _ => d ≠ '0'
  if intOk then
    let (fracPart, cs3) := match cs2 with
      | '.' :: rest =>
        let ds := rest.takeWhile isDigit
        if ds.isEmpty then ([], cs2) else ('.' :: ds, rest.dropWhile isDigit)
      | _ => ([], cs2)
    let fracFailed : Bool := match cs2 with
      | '.' :: rest => (rest.takeWhile isDigit).isEmpty
      | _ => false
    if fracFailed then none
    else
      let (expPart, cs4) := match cs3 with
        | e :: rest =>
          if e = 'e' ∨ e = 'E' then
            let (sg, rest2) := match rest with
              | '+' :: r => (['+'], r)
              | '-' :: r => (['-'], r)
              | _ => ([], rest)
            let ds := rest2.takeWhile isDigit
            if ds.isEmpty then ([], cs3)
            else (e :: (sg ++ ds), rest2.dropWhile isDigit)
          else ([], cs3)
        | [] => ([], cs3)
      let expFailed : Bool := match cs3 with
        | e :: rest =>
          if e = 'e' ∨ e = 'E' then
            ((match rest with
              | '+' :: r => r
              | '-' :: r => r
              | _ => rest).takeWhile isDigit).isEmpty
          else false
        | [] => false
      if expFailed then none
      else some (⟨sign ++ intPart ++ fracPart ++ expPart⟩, cs4)
  else none

mutual

/-- Parse one JSON value (after skipping leading whitespace). -/
def parseVal : Nat → List Char → Option (JsValue × List Char)
  | 0, _ => none
  | fuel + 1, cs =>
    match skipWs cs with
    | [] => none
    | c :: rest =>
      if c = '"' then
        match parseStringBody (rest.length + 1) rest [] with
        | some (s, r) => some (.str s, r)
        | none => none
      else if c = lbrace then
        match skipWs rest with
        | c2 :: rest2 =>
          if c2 = rbrace then some (.obj [], rest2)
          else parseMembers fuel (c2 :: rest2) []
        | [] => none
      else if c = '[' then
        match skipWs rest with
        | c2 :: rest2 =>
          if c2 = ']' then some (.arr [], rest2)
          else parseElements fuel (c2 :: rest2) []
        | [] => none
      else if startsWithChars (c :: rest) ("true".data) then
        some (.bool true, (c :: rest).drop 4)
      else if startsWithChars (c :: rest) ("false".data) then
        some (.bool false, (c :: rest).drop 5)
      else if startsWithChars (c :: rest) ("null".data) then
        some (.null, (c :: rest).drop 4)
      else
        match parseNumberToken (c :: rest) with
        | some (lex, r) => some (.num lex, r)
        | none => none

/-- Parse the members of a JSON object (positioned at a member key). -/
def parseMembers : Nat → List Char → List (String × JsValue) →
    Option (JsValue × List Char)
  | 0, _, _ => none
  | fuel + 1, cs, acc =>
    match skipWs cs with
    | '"' :: rest =>
      match parseStringBody (rest.length + 1) rest [] with
      | some (key, r1) =>
        match skipWs r1 with
        | ':' :: r2 =>
          match parseVal fuel r2 with
          | some (v, r3) =>
            match skipWs r3 with
            | ',' :: r4 => parseMembers fuel r4 ((key, v) :: acc)
            | c :: r4 =>
              if c = rbrace then some (.obj ((key, v) :: acc).reverse, r4)
              else none
            | [] => none
          | none => none
        | _ => none
      | none => none
    | _ => none

/-- Parse the elements of a JSON array (positioned at an element). -/
def parseElements : Nat → List Char → List JsValue →
    Option (JsValue × List Char)
  | 0, _, _ => none
  | fuel + 1, cs, acc =>
    match parseVal fuel cs with
    | some (v, r1) =>
      match skipWs r1 with
      | ',' :: r2 => parseElements fuel r2 (v :: acc)
      | ']' :: r2 => some (.arr (v :: acc).reverse, r2)
      | _ => none
    | none => none

end

/-- `JSON.parse`, modelled: `none` when the parse throws.  The fuel
`s.length + 2` strictly dominates the recursion depth because every
recursive call consumes at least one character first. -/
def jsonParse (s : String) : Option JsValue :=
  match parseVal (s.length + 2) s.data with
  | some (v, rest) => if (skipWs rest).isEmpty then some v else none
  | none => none

/-- JS `??` (nullish coalescing) viewpoint on an optional field value:
`none` models `undefined`, and `null` is also nullish. -/
def nullish : Option JsValue → Option JsValue
  | none => none
  | some .null => none
  | some v => some v

/-- JS property access `v.k`.  Throws (`.error ()`) when the receiver is
`null`; yields the last binding for duplicate keys (as `JSON.parse` does);
yields `undefined` (`none`) for non-object receivers or absent keys. -/
def getProp : JsValue → String → Except Unit (Option JsValue)
  | .null, _ => .error ()
  | .obj fields, k => .ok (((fields.filter (fun f => f.1 == k)).getLast?).map (·.2))
  | _, _ => .ok none

/-- `parsed.jsCode ?? parsed.js_code ?? ''` from `parseScriptPayload` (a
thrown property access propagates). -/
def coalescedJsCode (parsed : JsValue) : Except Unit JsValue :=
  match getProp parsed "jsCode" with
  | .error u => .error u
  | .ok a =>
    match nullish a with
    | some v => .ok v
    | none =>
      match getProp parsed "js_code" with
      | .error u => .error u
      | .ok b => .ok ((nullish b).getD (.str ""))

/-- `parsed.k1 ?? parsed.k2` (may be `undefined`; a thrown property access
propagates). -/
def coalescedField (parsed : JsValue) (k1 k2 : String) :
    Except Unit (Option JsValue) :=
  match getProp parsed k1 with
  | .error u => .error u
  | .ok a =>
    match nullish a with
    | some v => .ok (some v)
    | none =>
      match getProp parsed k2 with
      | .error u => .error u
      | .ok b => .ok (nullish b)

/-- `typeof v === 'string' && v.trim()`: keep the raw string only when it is
a string that is non-blank after trimming. -/
def keepNonBlankString : Option JsValue → Option String
  | some (.str s) => if jsTrim s = "" then none else some s
  | _ => none

/-- The `try` body of `parseScriptPayload` applied to a successfully parsed
JSON value: `.error ()` models a thrown property access (null receiver);
`.ok none` models falling through the `if (typeof jsCode === 'string')`
guard without an exception.  Both continue to `return { jsCode: content }`. -/
def tryParsedPayload (parsed : JsValue) : Except Unit (Option GeneratedScriptPayload) :=
  match coalescedJsCode parsed with
  | .error u => .error u
  | .ok jsv =>
    match coalescedField parsed "cssCode" "css_code" with
    | .error u => .error u
    | .ok cssv =>
      match coalescedField parsed "urlMatchPattern" "url_match_pattern" with
      | .error u => .error u
      | .ok urlv =>
        match jsv with
        | .str js =>
          .ok (some { jsCode := js
                      cssCode := keepNonBlankString cssv
                      urlMatchPattern := keepNonBlankString urlv })
        | _ => .ok none

/-- `parseScriptPayload` from the model client: blank content yields an
empty `jsCode`; otherwise attempt JSON parsing, and fall back to the whole
content verbatim when parsing throws, property access throws, or the
coalesced `jsCode` value is not a string. -/
def parseScriptPayload (content : String) : GeneratedScriptPayload :=
  if jsTrim content = "" then { jsCode := "" }
  else
    match jsonParse content with
    | none => { jsCode := content }
    | some parsed =>
      match tryParsedPayload parsed with
      | .ok (some payload) => payload
      | .ok none => { jsCode := content }
      | .error _ => { jsCode := content }

/-- The source-level condition under which `parseScriptPayload` uses its
verbatim plain-text fallback (for non-blank content): the JSON parse throws,
or the property access throws, or the coalesced `jsCode` value is not a
string. -/
def fallbackCond (content : String) : Bool :=
  match jsonParse content with
  | none => true
  | some parsed =>
    match coalescedJsCode parsed with
    | .error _ => true
    | .ok (.str _) => false
    | .ok _ => true

/-! ## Job supervisor (src/ai/jobManager.ts)

The `JobManager` registry is a map from key to the active job's
`AbortController`; controllers are identified by the `Nat` at which they
were allocated.  The asynchronous lifecycle is split into its synchronous
segments: `runStart` (the body of `run` up to and including
`this.jobs.set`), and `settle` (the `catch`/`finally` classification and
ownership-checked cleanup that run when the task's promise settles).  A
task's observable settlement is an `Except JsError T`: `.ok` for a fulfilled
promise, `.error` for a synchronous throw or a rejection (cancellation
rejections carry the name `"AbortError"`). -/

/-- A thrown JavaScript error, as far as the `JobManager` inspects it. -/
structure JsError where
  name : String
  message : String
  deriving DecidableEq, Repr

/-- `JobResult` from `jobManager.ts` (`status` plus its payload). -/
inductive JobResult (T : Type) where
  | success (value : T)
  | error (e : JsError)
  | cancelled
  deriving DecidableEq, Repr

/-- Association-list lookup, modelling `Map.get`. -/
def alookup {α : Type} : List (String × α) → String → Option α
  | [], _ => none
  | (k, v) :: rest, key => if k = key then some v else alookup rest key

/-- `Map.delete`, modelling deletion of the (unique) entry for a key. -/
def aerase {α : Type} (l : List (String × α)) (key : String) : List (String × α) :=
  l.filter (fun p => p.1 != key)

/-- `Map.set`. -/
def ainsert {α : Type} (l : List (String × α)) (key : String) (v : α) :
    List (String × α) :=
  (key, v) :: aerase l key

/-- The mutable state of a `JobManager`: the registry (key ↦ controller id),
the set of controllers whose `abort()` has been called, and the allocator
for fresh controller ids. -/
structure JMState where
  jobs : List (String × Nat)
  abortedIds : List Nat
  nextId : Nat
  deriving DecidableEq, Repr

def JMState.empty : JMState := ⟨[], [], 0⟩

/-- `signal.aborted` for the controller `j`. -/
def signalAborted (s : JMState) (j : Nat) : Bool := s.abortedIds.contains j

/-- `JobManager.cancel`: abort and evict the registered job, if any. -/
def jmCancel (s : JMState) (key : String) : JMState :=
  match alookup s.jobs key with
  | none => s
  | some j => { s with abortedIds := j :: s.abortedIds, jobs := aerase s.jobs key }

/-- The synchronous prefix of `JobManager.run`: cancel the previous job for
the key, allocate a fresh controller, and register the new job.  Returns the
new controller's id. -/
def jmRunStart (s : JMState) (key : String) : JMState × Nat :=
  let s1 := jmCancel s key
  let j := s1.nextId
  ({ s1 with jobs := ainsert s1.jobs key j, nextId := j + 1 }, j)

/-- The `catch` classification in `run`'s wrapper: a fulfilled task is
`success`; a rejection named `AbortError` is `cancelled`; any other
rejection (or synchronous throw) is `error`. -/
def classifyOutcome {T : Type} (r : Except JsError T) : JobResult T :=
  match r with
  | .ok v => .success v
  | .error e => if e.name = "AbortError" then .cancelled else .error e

/-- The settlement of the job `(key, j)`: classify the task's outcome, then
run the `finally` block, which deletes the registry entry only when it is
still owned by this job's controller. -/
def jmSettle {T : Type} (s : JMState) (key : String) (j : Nat)
    (r : Except JsError T) : JMState × JobResult T :=
  let result := classifyOutcome r
  let s1 := if alookup s.jobs key = some j then { s with jobs := aerase s.jobs key } else s
  (s1, result)

/-- A cancellation-aware task, abstracted over whether its signal has fired
by the time it settles. -/
def JmTask (T : Type) : Type := Bool → Except JsError T

/-- The single-flight double-`run` experiment: start `slow` under `key`,
immediately start `fast` under the same key, let the fast task settle first
and the evicted slow task settle afterwards; return (slow outcome, fast
outcome). -/
def twoRunOutcomes {T : Type} (key : String) (slow fast : JmTask T) :
    JobResult T × JobResult T :=
  let r1 := jmRunStart JMState.empty key
  let r2 := jmRunStart r1.1 key
  let fastSettled := jmSettle r2.1 key r2.2 (fast (signalAborted r2.1 r2.2))
  let slowSettled := jmSettle fastSettled.1 key r1.2 (slow (signalAborted fastSettled.1 r1.2))
  (slowSettled.2, fastSettled.2)

/-! ## Preview applicator (pagePilot content module)

The live document is modelled by the list of injected `<style>` elements in
document order (each carrying its `data-pagepilot-script-id` tag and a
unique element identity), the `previews` registry, an allocator for element
identities, and a log of invoked cleanup callbacks.  A generated script's
execution is abstracted by `ScriptBehavior`: which callback it passes to
`registerCleanup`, and whether it throws or resolves (possibly to a
callable adopted as the cleanup).  The claims quantify only over this
observable surface of script execution. -/

/-- An injected `<style>` element: its identity, its
`data-pagepilot-script-id` tag, and its CSS text. -/
structure StyleEl where
  elId : Nat
  scriptId : String
  css : String
  deriving DecidableEq, Repr

/-- `PreviewEntry` from the preview applicator. -/
structure PreviewEntry where
  id : String
  selector : String
  cleanup : Option Nat
  styleElId : Option Nat
  deriving DecidableEq, Repr

/-- The preview applicator's state: the document's injected styles, the
`previews` registry, the element-identity allocator, and the log of cleanup
invocations (cleanup callbacks are identified by `Nat` tags). -/
structure PPState where
  styles : List StyleEl
  previews : List (String × PreviewEntry)
  nextElId : Nat
  cleanupCalls : List Nat
  deriving DecidableEq, Repr

def PPState.empty : PPState := ⟨[], [], 0, []⟩

/-- `attachStyle`: no-op for a falsy (`undefined` or empty) `cssCode`,
otherwise append a tagged style element to the document head. -/
def attachStyle (s : PPState) (id : String) (css : Option String) :
    PPState × Option Nat :=
  match css with
  | none => (s, none)
  | some c =>
    if c = "" then (s, none)
    else
      ({ s with styles := s.styles ++ [⟨s.nextElId, id, c⟩]
                nextElId := s.nextElId + 1 },
       some s.nextElId)

/-- The observable behaviour of one generated script execution: the last
callback it handed to `registerCleanup`, and its outcome (a throw, or a
resolved value that is `some` cleanup tag when callable). -/
structure ScriptBehavior where
  registered : Option Nat
  outcome : Except JsError (Option Nat)
  deriving Repr

/-- `executeJs`: blank code runs nothing and yields no cleanup; otherwise
the script runs, a thrown error propagates, and a callable resolved value
overrides any `registerCleanup` registration. -/
def executeJs (js : String) (beh : ScriptBehavior) : Except JsError (Option Nat) :=
  if jsTrim js = "" then .ok none
  else
    match beh.outcome with
    | .error e => .error e
    | .ok ret =>
      .ok (match ret with
           | some f => some f
           | none => beh.registered)

/-- Best-effort invocation of a stored cleanup callback (failures are caught
and logged by the source; the log records the invocation). -/
def runCleanup (s : PPState) (c : Option Nat) : PPState :=
  match c with
  | some f => { s with cleanupCalls := s.cleanupCalls ++ [f] }
  | none => s

/-- `element.remove()` on the style element with identity `n`. -/
def removeElById (s : PPState) (n : Nat) : PPState :=
  { s with styles := s.styles.filter (fun st => st.elId != n) }

/-- `document.querySelector('style[data-pagepilot-script-id=...]')` followed
by `remove()`: delete the first style tagged `id`, in document order. -/
def removeFirstTagged (styles : List StyleEl) (id : String) : List StyleEl :=
  match styles with
  | [] => []
  | st :: rest => if st.scriptId = id then rest else st :: removeFirstTagged rest id

/-- The styles currently tagged with `id`, in document order. -/
def taggedStyles (styles : List StyleEl) (id : String) : List StyleEl :=
  styles.filter (fun st => st.scriptId == id)

/-- Teardown of the registered entry for `id`, if any: best-effort cleanup,
removal of its stylesheet, and eviction of the registry entry.  This is the
code shared by `applyPreviewScript`'s re-application path and
`removePreviewScript`. -/
def teardownExisting (s : PPState) (id : String) : PPState :=
  match alookup s.previews id with
  | some e =>
    let sA := runCleanup s e.cleanup
    let sB := match e.styleElId with
      | some n => removeElById sA n
      | none => sA
    { sB with previews := aerase sB.previews id }
  | none => s

/-- `applyPreviewScript`: tear down any existing entry for the id, then
attach the new stylesheet, execute the script, and either register the new
entry or roll the stylesheet back and re-raise the failure. -/
def applyPreviewScript (s : PPState) (id selector : String)
    (payload : GeneratedScriptPayload) (beh : ScriptBehavior) :
    PPState × Option JsError :=
  let s0 := teardownExisting s id
  let att := attachStyle s0 id payload.cssCode
  match executeJs payload.jsCode beh with
  | .error e => ({ att.1 with styles := removeFirstTagged att.1.styles id }, some e)
  | .ok cleanup =>
    ({ att.1 with previews := ainsert att.1.previews id ⟨id, selector, cleanup, att.2⟩ },
     none)

/-- `removePreviewScript`: no-op for an unknown id; otherwise best-effort
cleanup, stylesheet removal, and registry eviction. -/
def removePreviewScript (s : PPState) (scriptId : String) : PPState :=
  teardownExisting s scriptId

/-- Every document style tagged `id` is the one owned by the registry entry
for `id` — true of every state the applicator itself produces. -/
def stylesOwned (s : PPState) (id : String) : Prop :=
  ∀ st ∈ s.styles, st.scriptId = id →
    ∃ e, alookup s.previews id = some e ∧ e.styleElId = some st.elId

/-- Every document style's element identity is below the allocator. -/
def freshIds (s : PPState) : Prop :=
  ∀ st ∈ s.styles, st.elId < s.nextElId

/-! ## Supporting lemmas -/

theorem length_jsTake (s : String) (n : Nat) :
    (jsTake s n).length = min n s.length := by
  show (s.data.take n).length = min n s.data.length
  exact List.length_take n s.data

theorem length_pos_of_lt {value : String} {limit : Nat}
    (h : limit < value.length) : value ≠ "" := by
  intro he
  subst he
  simp [String.length] at h

theorem alookup_mem {α : Type} :
    ∀ (l : List (String × α)) (key : String) (v : α),
      alookup l key = some v → (key, v) ∈ l := by
  intro l
  induction l with
  | nil => intro key v h; simp [alookup] at h
  | cons p rest ih =>
    intro key v h
    obtain ⟨k, w⟩ := p
    by_cases hk : k = key
    · subst hk
      simp [alookup] at h
      subst h
      exact List.mem_cons_self _ _
    · simp [alookup, hk] at h
      exact List.mem_cons_of_mem _ (ih key v h)

theorem alookup_ainsert_self {α : Type} (l : List (String × α)) (k : String) (v : α) :
    alookup (ainsert l k v) k = some v := by
  simp [ainsert, alookup]

theorem alookup_aerase_self {α : Type} (l : List (String × α)) (k : String) :
    alookup (aerase l k) k = none := by
  induction l with
  | nil => rfl
  | cons p rest ih =>
    obtain ⟨k1, v1⟩ := p
    by_cases hk : k1 = k
    · simpa [aerase, List.filter_cons, hk] using ih
    · have hb : (k1 != k) = true := by simp [hk]
      simp only [aerase, List.filter_cons, hb]
      simpa [alookup, hk, aerase] using ih

theorem filter_aerase {α : Type} (l : List (String × α)) (k : String) :
    (aerase l k).filter (fun p => p.1 == k) = [] := by
  rw [List.filter_eq_nil_iff]
  intro p hp
  have := List.of_mem_filter hp
  simp only [bne_iff_ne, ne_eq] at this
  simp [this]

theorem aerase_ainsert {α : Type} (l : List (String × α)) (k : String) (v : α) :
    aerase (ainsert l k v) k = aerase l k := by
  simp [ainsert, aerase, List.filter_cons, List.filter_filter]

theorem tagged_removeFirstTagged (l : List StyleEl) (id : String) :
    taggedStyles (removeFirstTagged l id) id = (taggedStyles l id).drop 1 := by
  induction l with
  | nil => rfl
  | cons st rest ih =>
    by_cases h : st.scriptId = id
    · simp [removeFirstTagged, taggedStyles, h]
    · simp only [removeFirstTagged, if_neg h, taggedStyles, List.filter_cons]
      have : (st.scriptId == id) = false := by simp [h]
      rw [this]
      exact ih

theorem taggedStyles_append (a b : List StyleEl) (id : String) :
    taggedStyles (a ++ b) id = taggedStyles a id ++ taggedStyles b id := by
  simp [taggedStyles]

theorem filter_fresh (l : List StyleEl) (n : Nat)
    (h : ∀ st ∈ l, st.elId < n) :
    l.filter (fun st => st.elId != n) = l := by
  rw [List.filter_eq_self]
  intro st hst
  have := h st hst
  simp only [bne_iff_ne, ne_eq]
  omega

theorem attachStyle_previews (s : PPState) (id : String) (css : Option String) :
    (attachStyle s id css).1.previews = s.previews := by
  cases css with
  | none => rfl
  | some c =>
    by_cases h : c = ""
    · simp [attachStyle, h]
    · simp [attachStyle, h]

theorem attachStyle_cleanupCalls (s : PPState) (id : String) (css : Option String) :
    (attachStyle s id css).1.cleanupCalls = s.cleanupCalls := by
  cases css with
  | none => rfl
  | some c =>
    by_cases h : c = ""
    · simp [attachStyle, h]
    · simp [attachStyle, h]

theorem runCleanup_styles (s : PPState) (c : Option Nat) :
    (runCleanup s c).styles = s.styles := by
  cases c <;> rfl

theorem runCleanup_previews (s : PPState) (c : Option Nat) :
    (runCleanup s c).previews = s.previews := by
  cases c <;> rfl

theorem teardown_clears (s : PPState) (id : String) (hOwned : stylesOwned s id) :
    taggedStyles (teardownExisting s id).styles id = [] ∧
    alookup (teardownExisting s id).previews id = none := by
  unfold teardownExisting
  cases hl : alookup s.previews id with
  | none =>
    refine ⟨?_, hl⟩
    show taggedStyles s.styles id = []
    unfold taggedStyles
    rw [List.filter_eq_nil_iff]
    intro st hst
    simp only [beq_iff_eq]
    intro hb
    obtain ⟨e, he, _⟩ := hOwned st hst hb
    rw [hl] at he
    exact Option.noConfusion he
  | some e =>
    obtain ⟨eid, esel, ecl, este⟩ := e
    have hOwnedE : ∀ st ∈ s.styles, st.scriptId = id → este = some st.elId := by
      intro st hst hb
      obtain ⟨e2, he2, hid2⟩ := hOwned st hst hb
      rw [hl] at he2
      cases he2
      exact hid2
    cases este with
    | none =>
      refine ⟨?_, ?_⟩
      · show taggedStyles (runCleanup s ecl).styles id = []
        rw [runCleanup_styles]
        unfold taggedStyles
        rw [List.filter_eq_nil_iff]
        intro st hst
        simp only [beq_iff_eq]
        intro hb
        exact Option.noConfusion (hOwnedE st hst hb)
      · show alookup (aerase (runCleanup s ecl).previews id) id = none
        exact alookup_aerase_self _ id
    | some n =>
      refine ⟨?_, ?_⟩
      · show taggedStyles (removeElById (runCleanup s ecl) n).styles id = []
        unfold removeElById taggedStyles
        simp only [runCleanup_styles]
        rw [List.filter_eq_nil_iff]
        intro st hst
        simp only [beq_iff_eq]
        intro hb
        have hst0 : st ∈ s.styles := (List.mem_filter.mp hst).1
        have hne : (st.elId != n) = true := (List.mem_filter.mp hst).2
        have := hOwnedE st hst0 hb
        cases this
        simp at hne
      · show alookup (aerase (removeElById (runCleanup s ecl) n).previews id) id = none
        exact alookup_aerase_self _ id

theorem teardown_of_lookup_none (s : PPState) (id : String)
    (h : alookup s.previews id = none) :
    teardownExisting s id = s := by
  unfold teardownExisting
  rw [h]

/-! ## Claim theorems -/

/-- Claim C7: for every domSnippet strictly longer than the cap, the
truncated output's length is the cap plus the marker's length and the output
ends with the marker; inputs at or under the cap are returned unchanged. -/
theorem claim_C7_truncate (value : String) (limit : Nat) :
    (limit < value.length →
      (truncate value limit).length = limit + TRUNCATION_MARKER.length ∧
      ∃ pre, truncate value limit = pre ++ TRUNCATION_MARKER) ∧
    (value.length ≤ limit → truncate value limit = value) := by
  constructor
  · intro h
    have hne : value ≠ "" := length_pos_of_lt h
    have hcond : ¬ (value = "" ∨ value.length ≤ limit) := by
      intro hc
      rcases hc with hc | hc
      · exact hne hc
      · omega
    rw [truncate, if_neg hcond]
    refine ⟨?_, jsTake value limit, rfl⟩
    rw [String.length_append, length_jsTake]
    omega
  · intro h
    rw [truncate, if_pos (Or.inr h)]

/-- Claim C7 witness: a concrete snippet of length 4 with cap 2. -/
theorem claim_C7_truncate_witness :
    (truncate "abcd" 2).length = 2 + TRUNCATION_MARKER.length ∧
    ∃ pre, truncate "abcd" 2 = pre ++ TRUNCATION_MARKER :=
  (claim_C7_truncate "abcd" 2).1 (by decide)

/-- Unfolding equation for `normaliseHistory` on a present conversation. -/
theorem normaliseHistory_some (conv : List AiChatMessage) :
    normaliseHistory (some conv) =
      if conv.isEmpty then none
      else
        if ((takeLast (conv.filter isConversant) 8).map renderHistoryTurn).isEmpty
        then none
        else some ((takeLast (conv.filter isConversant) 8).map renderHistoryTurn) := rfl

/-- Claim C8: history normalization returns at most the last 8 conversant
(user/assistant) turns, rendered; when no turns qualify it returns
`undefined` (`none`), never an empty list. -/
theorem claim_C8_history (conv : List AiChatMessage) :
    (∀ l, normaliseHistory (some conv) = some l →
      l ≠ [] ∧ l.length ≤ 8 ∧
      l = (takeLast (conv.filter isConversant) 8).map renderHistoryTurn) ∧
    (conv.filter isConversant = [] → normaliseHistory (some conv) = none) := by
  constructor
  · intro l hl
    rw [normaliseHistory_some] at hl
    by_cases he : conv.isEmpty
    · rw [if_pos he] at hl
      exact Option.noConfusion hl
    · rw [if_neg he] at hl
      by_cases hh : ((takeLast (conv.filter isConversant) 8).map renderHistoryTurn).isEmpty
      · rw [if_pos hh] at hl
        exact Option.noConfusion hl
      · rw [if_neg hh] at hl
        cases hl
        refine ⟨by simpa [List.isEmpty_iff] using hh, ?_, rfl⟩
        rw [List.length_map]
        unfold takeLast
        rw [List.length_drop]
        omega
  · intro hf
    rw [normaliseHistory_some]
    by_cases he : conv.isEmpty
    · rw [if_pos he]
    · rw [if_neg he, if_pos]
      rw [hf]
      rfl

/-- Claim C8 witness: a two-turn conversation whose system turn is dropped. -/
theorem claim_C8_history_witness :
    ["User: hi"] ≠ ([] : List String) ∧ (["User: hi"] : List String).length ≤ 8 ∧
    ["User: hi"] = (takeLast ([⟨.system, "sys", none, none⟩,
      ⟨.user, "hi", none, none⟩].filter isConversant) 8).map renderHistoryTurn :=
  (claim_C8_history [⟨.system, "sys", none, none⟩, ⟨.user, "hi", none, none⟩]).1
    ["User: hi"] (by decide)

/-- Claim C9: for every payload, the validator result has `ok` true iff the
error list is empty, and carries a script iff `ok` is true. -/
theorem claim_C9_validator_invariant (payload : GeneratedScriptPayload) :
    ((validateGeneratedScript payload).ok = true ↔
      (validateGeneratedScript payload).errors = []) ∧
    ((validateGeneratedScript payload).script.isSome = true ↔
      (validateGeneratedScript payload).ok = true) := by
  by_cases h : jsTrim payload.jsCode = "" <;>
    simp [validateGeneratedScript, h]

/-- Claim C9 witness: the invariant at a concrete payload. -/
theorem claim_C9_validator_invariant_witness :
    ((validateGeneratedScript ⟨"x", none, none⟩).ok = true ↔
      (validateGeneratedScript ⟨"x", none, none⟩).errors = []) ∧
    ((validateGeneratedScript ⟨"x", none, none⟩).script.isSome = true ↔
      (validateGeneratedScript ⟨"x", none, none⟩).ok = true) :=
  claim_C9_validator_invariant ⟨"x", none, none⟩

/-- Claim C5 counterexample: the validator returns the **trimmed** `cssCode`,
not the original as supplied.  At `cssCode = " .a "` the successful result
carries `".a"`, which differs from the supplied string. -/
theorem claim_C5_counterexample :
    (validateGeneratedScript ⟨"x", some " .a ", none⟩).ok = true ∧
    (validateGeneratedScript ⟨"x", some " .a ", none⟩).script =
      some ⟨"x", some ".a", none⟩ ∧
    (some ".a" : Option String) ≠ some " .a " := by
  refine ⟨by decide, by decide, by decide⟩

/-- Claim C5 (amended): on success the returned script carries the trimmed
`jsCode`, the **trimmed** `cssCode` (or `undefined` when absent), and the
trimmed `urlMatchPattern` (or `undefined` when absent). -/
theorem claim_C5_script_fields (payload : GeneratedScriptPayload)
    (h : (validateGeneratedScript payload).ok = true) :
    (validateGeneratedScript payload).script =
      some ⟨jsTrim payload.jsCode, payload.cssCode.map jsTrim,
        payload.urlMatchPattern.map jsTrim⟩ := by
  by_cases hjs : jsTrim payload.jsCode = ""
  · simp [validateGeneratedScript, hjs] at h
  · simp [validateGeneratedScript, hjs]

/-- Claim C5 witness: the amended statement at a concrete payload. -/
theorem claim_C5_script_fields_witness :
    (validateGeneratedScript ⟨"x", some " .a ", none⟩).script =
      some ⟨jsTrim "x", (some " .a ").map jsTrim, (none : Option String).map jsTrim⟩ :=
  claim_C5_script_fields ⟨"x", some " .a ", none⟩ (by decide)

theorem getProp_ok_of_ne_null (parsed : JsValue) (h : parsed ≠ .null) (k : String) :
    ∃ o, getProp parsed k = Except.ok o := by
  cases parsed with
  | null => exact absurd rfl h
  | obj fields => exact ⟨_, rfl⟩
  | str s => exact ⟨none, rfl⟩
  | num s => exact ⟨none, rfl⟩
  | bool b => exact ⟨none, rfl⟩
  | arr xs => exact ⟨none, rfl⟩

theorem coalescedJsCode_ok_ne_null (parsed : JsValue) (v : JsValue)
    (h : coalescedJsCode parsed = .ok v) : parsed ≠ .null := by
  intro hn
  subst hn
  simp [coalescedJsCode, getProp] at h

theorem coalescedField_ok_of_ne_null (parsed : JsValue) (h : parsed ≠ .null)
    (k1 k2 : String) : ∃ o, coalescedField parsed k1 k2 = Except.ok o := by
  obtain ⟨o1, h1⟩ := getProp_ok_of_ne_null parsed h k1
  obtain ⟨o2, h2⟩ := getProp_ok_of_ne_null parsed h k2
  unfold coalescedField
  rw [h1]
  cases hn : nullish o1 with
  | some v => exact ⟨some v, by simp [hn]⟩
  | none => exact ⟨nullish o2, by simp [hn, h2]⟩

theorem tryParsedPayload_of_nonstring (parsed : JsValue) (v : JsValue)
    (hc : coalescedJsCode parsed = .ok v) (hv : ∀ s, v ≠ .str s) :
    tryParsedPayload parsed = .ok none := by
  have hnn : parsed ≠ .null := coalescedJsCode_ok_ne_null parsed v hc
  obtain ⟨ocss, hcss⟩ := coalescedField_ok_of_ne_null parsed hnn "cssCode" "css_code"
  obtain ⟨ourl, hurl⟩ := coalescedField_ok_of_ne_null parsed hnn
    "urlMatchPattern" "url_match_pattern"
  unfold tryParsedPayload
  rw [hc, hcss, hurl]
  cases v with
  | str s => exact absurd rfl (hv s)
  | num s => rfl
  | bool b => rfl
  | null => rfl
  | arr xs => rfl
  | obj fields => rfl

/-- Claim C6 counterexample: at the extracted text `"{}"` the JSON parse
succeeds with an object carrying no `jsCode`/`js_code` field (so the field
is certainly "not a string"), yet `parseScriptPayload` returns
`jsCode = ""` — the `?? ''` default — not the entire text verbatim. -/
theorem claim_C6_counterexample :
    jsonParse "\x7b\x7d" = some (JsValue.obj []) ∧
    parseScriptPayload "\x7b\x7d" = { jsCode := "" } ∧
    parseScriptPayload "\x7b\x7d" ≠ { jsCode := "\x7b\x7d" } := by
  refine ⟨rfl, rfl, ?_⟩
  intro h
  have : ("" : String) = "\x7b\x7d" := congrArg GeneratedScriptPayload.jsCode h
  exact absurd this (by decide)

/-- Claim C6 (amended): for non-blank extracted text, the verbatim fallback
(whole text as `jsCode`, no `cssCode`, no `urlMatchPattern`) applies exactly
under `fallbackCond`: the JSON parse throws, or property access on the
parsed document throws (`null`), or the coalesced `jsCode ?? js_code ?? ''`
value is not a string — a present-but-non-string field.  An absent or
`null` field coalesces to `''` (a string) and so does **not** fall back.
In particular plain text `console.log(2)` yields
`{jsCode := "console.log(2)"}` with no `cssCode`. -/
theorem claim_C6_fallback :
    (∀ content : String, jsTrim content ≠ "" → fallbackCond content = true →
      parseScriptPayload content = { jsCode := content }) ∧
    parseScriptPayload "console.log(2)" = { jsCode := "console.log(2)" } := by
  constructor
  · intro content h1 h2
    unfold parseScriptPayload
    rw [if_neg h1]
    cases hj : jsonParse content with
    | none => rfl
    | some parsed =>
      have h2opt : (match coalescedJsCode parsed with
          | .error _ => true
          | .ok (.str _) => false
          | .ok _ => true) = true := by
        have hdef : fallbackCond content = (match coalescedJsCode parsed with
            | .error _ => true
            | .ok (.str _) => false
            | .ok _ => true) := by
          unfold fallbackCond
          rw [hj]
        rw [hdef] at h2
        exact h2
      show (match tryParsedPayload parsed with
        | .ok (some payload) => payload
        | .ok none => { jsCode := content }
        | .error _ => { jsCode := content }) = { jsCode := content }
      cases hc : coalescedJsCode parsed with
      | error u =>
        have ht : tryParsedPayload parsed = .error u := by
          unfold tryParsedPayload
          rw [hc]
        rw [ht]
      | ok v =>
        rw [hc] at h2opt
        cases v with
        | str s => simp at h2opt
        | num s => rw [tryParsedPayload_of_nonstring parsed _ hc (fun _ h => by cases h)]
        | bool b => rw [tryParsedPayload_of_nonstring parsed _ hc (fun _ h => by cases h)]
        | null => rw [tryParsedPayload_of_nonstring parsed _ hc (fun _ h => by cases h)]
        | arr xs => rw [tryParsedPayload_of_nonstring parsed _ hc (fun _ h => by cases h)]
        | obj fields => rw [tryParsedPayload_of_nonstring parsed _ hc (fun _ h => by cases h)]
  · rfl

/-- Claim C6 witness: the fallback case at the plain text `console.log(2)`,
whose JSON parse fails. -/
theorem claim_C6_fallback_witness :
    parseScriptPayload "console.log(2)" = { jsCode := "console.log(2)" } :=
  claim_C6_fallback.1 "console.log(2)" (by decide) rfl

/-- Claim C1: running a slow cancellation-aware task and then immediately a
fast task under the same key resolves the first call's outcome as
`cancelled` and the second as `success` with the fast task's value. -/
theorem claim_C1_single_flight {T : Type} (key : String) (v : T)
    (slow fast : JmTask T)
    (hslow : ∃ e, slow true = .error e ∧ e.name = "AbortError")
    (hfast : fast false = .ok v) :
    twoRunOutcomes key slow fast = (JobResult.cancelled, JobResult.success v) := by
  obtain ⟨e, he, hn⟩ := hslow
  unfold twoRunOutcomes
  simp only [jmRunStart, jmCancel, jmSettle, JMState.empty, alookup, ainsert, aerase,
    signalAborted, List.filter_nil, List.filter_cons]
  simp only [if_pos rfl, bne_self_eq_false, List.filter_nil, alookup]
  simp only [List.contains, List.elem_eq_mem, List.mem_singleton]
  norm_num
  rw [hfast, he]
  simp [classifyOutcome, hn, alookup]

/-- A cancellation-aware slow task for the C1 witness. -/
def slowTaskW : JmTask Nat :=
  fun aborted => if aborted then .error ⟨"AbortError", "Aborted"⟩ else .ok 0

/-- A fast task for the C1 witness. -/
def fastTaskW : JmTask Nat := fun _ => .ok 7

/-- Claim C1 witness: the single-flight experiment at a concrete key and
concrete tasks. -/
theorem claim_C1_single_flight_witness :
    twoRunOutcomes "tab-1" slowTaskW fastTaskW =
      (JobResult.cancelled, JobResult.success 7) :=
  claim_C1_single_flight "tab-1" 7 slowTaskW fastTaskW
    ⟨⟨"AbortError", "Aborted"⟩, rfl, rfl⟩ rfl

/-- Claim C2: a job evicted by a newer `run` for the same key does not, on
its own later settlement, remove the newer job's registry entry — the
`finally` block deletes the entry only when it is still owned by the
settling job's controller. -/
theorem claim_C2_ownership_check {T : Type} (s : JMState) (key : String)
    (jOld : Nat) (r : Except JsError T)
    (hwf : ∀ p ∈ s.jobs, p.2 < s.nextId)
    (hold : alookup s.jobs key = some jOld) :
    alookup (jmSettle (jmRunStart s key).1 key jOld r).1.jobs key =
      some (jmRunStart s key).2 := by
  have hlt : jOld < s.nextId := hwf (key, jOld) (alookup_mem s.jobs key jOld hold)
  have hnew : (jmRunStart s key).2 = s.nextId := by
    unfold jmRunStart jmCancel
    rw [hold]
  have hlook : alookup (jmRunStart s key).1.jobs key = some (jmRunStart s key).2 := by
    unfold jmRunStart jmCancel
    rw [hold]
    exact alookup_ainsert_self _ key _
  unfold jmSettle
  rw [hlook]
  have hne : (jmRunStart s key).2 ≠ jOld := by omega
  rw [if_neg (fun hx : some (jmRunStart s key).2 = some jOld =>
    hne (Option.some_injective _ hx))]
  exact hlook

/-- Claim C2 witness: a registry with an old job `0` under the key, a new
run, and the old job's settlement leaving the new entry in place. -/
theorem claim_C2_ownership_check_witness :
    alookup (jmSettle (jmRunStart ⟨[("tab-1", 0)], [], 1⟩ "tab-1").1 "tab-1" 0
      (Except.ok (5 : Nat))).1.jobs "tab-1" =
      some (jmRunStart ⟨[("tab-1", 0)], [], 1⟩ "tab-1").2 :=
  claim_C2_ownership_check ⟨[("tab-1", 0)], [], 1⟩ "tab-1" 0 (Except.ok 5)
    (by decide) rfl

/-- Claim C10: `run` never rejects — every way the unit of work can settle
(fulfilment, rejection, abort-classified rejection, or a synchronous throw,
which the wrapper's `try` also catches as a rejection) is classified into
exactly one of the three `JobResult` statuses. -/
theorem claim_C10_outcome_total {T : Type} (s : JMState) (key : String)
    (j : Nat) (r : Except JsError T) :
    ((∃ v, (jmSettle s key j r).2 = .success v) ∨
      (jmSettle s key j r).2 = .cancelled ∨
      (∃ e, (jmSettle s key j r).2 = .error e)) ∧
    (∀ v, r = .ok v → (jmSettle s key j r).2 = .success v) ∧
    (∀ e, r = .error e → e.name = "AbortError" →
      (jmSettle s key j r).2 = .cancelled) ∧
    (∀ e, r = .error e → e.name ≠ "AbortError" →
      (jmSettle s key j r).2 = .error e) := by
  refine ⟨?_, ?_, ?_, ?_⟩
  · cases r with
    | ok v => exact Or.inl ⟨v, rfl⟩
    | error e =>
      by_cases hn : e.name = "AbortError"
      · exact Or.inr (Or.inl (by simp [jmSettle, classifyOutcome, hn]))
      · exact Or.inr (Or.inr ⟨e, by simp [jmSettle, classifyOutcome, hn]⟩)
  · intro v hv
    subst hv
    rfl
  · intro e hv hn
    subst hv
    simp [jmSettle, classifyOutcome, hn]
  · intro e hv hn
    subst hv
    simp [jmSettle, classifyOutcome, hn]

/-- Claim C10 witness: an abort-classified rejection at a concrete state is
classified as `cancelled`. -/
theorem claim_C10_outcome_total_witness :
    (jmSettle JMState.empty "tab-1" 0
      (Except.error ⟨"AbortError", "Aborted"⟩ : Except JsError Nat)).2 =
      JobResult.cancelled :=
  (claim_C10_outcome_total JMState.empty "tab-1" 0
    (Except.error ⟨"AbortError", "Aborted"⟩)).2.2.1
    ⟨"AbortError", "Aborted"⟩ rfl rfl

/-- Claim C3: an `apply` whose script execution throws leaves zero
stylesheets tagged with the script id in the document, no registry entry for
the id, and rejects with the thrown failure.  The hypothesis `stylesOwned`
states that every tagged stylesheet in the document is the one owned by the
registry — true of every state the applicator itself produces. -/
theorem claim_C3_apply_rollback (s : PPState) (id selector : String)
    (payload : GeneratedScriptPayload) (beh : ScriptBehavior) (e : JsError)
    (hOwned : stylesOwned s id)
    (hThrow : executeJs payload.jsCode beh = .error e) :
    taggedStyles (applyPreviewScript s id selector payload beh).1.styles id = [] ∧
    alookup (applyPreviewScript s id selector payload beh).1.previews id = none ∧
    (applyPreviewScript s id selector payload beh).2 = some e := by
  obtain ⟨ht, hp⟩ := teardown_clears s id hOwned
  have happ : applyPreviewScript s id selector payload beh =
      ({ (attachStyle (teardownExisting s id) id payload.cssCode).1 with
         styles := removeFirstTagged
           (attachStyle (teardownExisting s id) id payload.cssCode).1.styles id },
       some e) := by
    unfold applyPreviewScript
    rw [hThrow]
  rw [happ]
  refine ⟨?_, ?_, rfl⟩
  · show taggedStyles (removeFirstTagged
      (attachStyle (teardownExisting s id) id payload.cssCode).1.styles id) id = []
    rw [tagged_removeFirstTagged]
    cases hcss : payload.cssCode with
    | none =>
      show (taggedStyles (teardownExisting s id).styles id).drop 1 = []
      rw [ht]
      rfl
    | some c =>
      by_cases hc : c = ""
      · have ha : attachStyle (teardownExisting s id) id (some c) =
            (teardownExisting s id, none) := by
          simp [attachStyle, hc]
        rw [ha, ht]
        rfl
      · have ha : (attachStyle (teardownExisting s id) id (some c)).1.styles =
            (teardownExisting s id).styles ++
              [⟨(teardownExisting s id).nextElId, id, c⟩] := by
          simp [attachStyle, hc]
        rw [ha, taggedStyles_append, ht]
        simp [taggedStyles]
  · show alookup
      (attachStyle (teardownExisting s id) id payload.cssCode).1.previews id = none
    rw [attachStyle_previews]
    exact hp

/-- Claim C3 witness: a failing script over an empty document. -/
theorem claim_C3_apply_rollback_witness :
    taggedStyles (applyPreviewScript PPState.empty "p1" ".btn"
      ⟨"broken()", some ".x", none⟩ ⟨none, .error ⟨"Error", "boom"⟩⟩).1.styles "p1" = [] ∧
    alookup (applyPreviewScript PPState.empty "p1" ".btn"
      ⟨"broken()", some ".x", none⟩ ⟨none, .error ⟨"Error", "boom"⟩⟩).1.previews "p1" = none ∧
    (applyPreviewScript PPState.empty "p1" ".btn"
      ⟨"broken()", some ".x", none⟩ ⟨none, .error ⟨"Error", "boom"⟩⟩).2 =
      some ⟨"Error", "boom"⟩ :=
  claim_C3_apply_rollback PPState.empty "p1" ".btn"
    ⟨"broken()", some ".x", none⟩ ⟨none, .error ⟨"Error", "boom"⟩⟩ ⟨"Error", "boom"⟩
    (fun _ h => nomatch h) rfl

/-- Claim C4: applying the same id twice in succession (both runs
succeeding, second teardown included) leaves exactly one stylesheet tagged
with the id — the second run's, the first run's stylesheet having been
removed — exactly one registry entry for the id, and the first run's
cleanup fired exactly once (during the second run's teardown, before the
second run's stylesheet and registry effects are installed). -/
theorem claim_C4_apply_idempotent (s : PPState) (id selector : String)
    (payload : GeneratedScriptPayload) (beh1 beh2 : ScriptBehavior)
    (c : String) (c1 : Nat) (cl2 : Option Nat)
    (hcss : payload.cssCode = some c) (hc : c ≠ "")
    (hfresh : freshIds s)
    (hnone : alookup s.previews id = none)
    (howned : taggedStyles s.styles id = [])
    (h1 : executeJs payload.jsCode beh1 = .ok (some c1))
    (h2 : executeJs payload.jsCode beh2 = .ok cl2) :
    taggedStyles (applyPreviewScript (applyPreviewScript s id selector payload beh1).1
        id selector payload beh2).1.styles id = [⟨s.nextElId + 1, id, c⟩] ∧
    ((applyPreviewScript (applyPreviewScript s id selector payload beh1).1
        id selector payload beh2).1.previews.filter (fun p => p.1 == id)).length = 1 ∧
    alookup (applyPreviewScript (applyPreviewScript s id selector payload beh1).1
        id selector payload beh2).1.previews id =
      some ⟨id, selector, cl2, some (s.nextElId + 1)⟩ ∧
    (applyPreviewScript (applyPreviewScript s id selector payload beh1).1
        id selector payload beh2).1.cleanupCalls = s.cleanupCalls ++ [c1] ∧
    (applyPreviewScript (applyPreviewScript s id selector payload beh1).1
        id selector payload beh2).2 = none := by
  have happ1 : applyPreviewScript s id selector payload beh1 =
      ({ styles := s.styles ++ [⟨s.nextElId, id, c⟩]
         previews := ainsert s.previews id ⟨id, selector, some c1, some s.nextElId⟩
         nextElId := s.nextElId + 1
         cleanupCalls := s.cleanupCalls }, none) := by
    unfold applyPreviewScript
    rw [teardown_of_lookup_none s id hnone, hcss, h1]
    have ha : attachStyle s id (some c) =
        ({ s with styles := s.styles ++ [⟨s.nextElId, id, c⟩]
                  nextElId := s.nextElId + 1 }, some s.nextElId) := by
      simp [attachStyle, hc]
    simp only [ha]
  have hstyles : (s.styles ++ [(⟨s.nextElId, id, c⟩ : StyleEl)]).filter
      (fun st => st.elId != s.nextElId) = s.styles := by
    rw [List.filter_append, filter_fresh s.styles s.nextElId hfresh]
    simp
  have hteard : teardownExisting
      ({ styles := s.styles ++ [⟨s.nextElId, id, c⟩]
         previews := ainsert s.previews id ⟨id, selector, some c1, some s.nextElId⟩
         nextElId := s.nextElId + 1
         cleanupCalls := s.cleanupCalls } : PPState) id =
      { styles := s.styles
        previews := aerase s.previews id
        nextElId := s.nextElId + 1
        cleanupCalls := s.cleanupCalls ++ [c1] } := by
    unfold teardownExisting
    rw [show alookup (ainsert s.previews id
        (⟨id, selector, some c1, some s.nextElId⟩ : PreviewEntry)) id =
        some (⟨id, selector, some c1, some s.nextElId⟩ : PreviewEntry) from
      alookup_ainsert_self s.previews id _]
    show ({ styles := (s.styles ++ [(⟨s.nextElId, id, c⟩ : StyleEl)]).filter
              (fun st => st.elId != s.nextElId)
            previews := aerase (ainsert s.previews id
              (⟨id, selector, some c1, some s.nextElId⟩ : PreviewEntry)) id
            nextElId := s.nextElId + 1
            cleanupCalls := s.cleanupCalls ++ [c1] } : PPState) = _
    rw [hstyles, aerase_ainsert]
  have happ2 : applyPreviewScript
      ({ styles := s.styles ++ [⟨s.nextElId, id, c⟩]
         previews := ainsert s.previews id ⟨id, selector, some c1, some s.nextElId⟩
         nextElId := s.nextElId + 1
         cleanupCalls := s.cleanupCalls } : PPState) id selector payload beh2 =
      ({ styles := s.styles ++ [⟨s.nextElId + 1, id, c⟩]
         previews := ainsert (aerase s.previews id) id
           ⟨id, selector, cl2, some (s.nextElId + 1)⟩
         nextElId := s.nextElId + 2
         cleanupCalls := s.cleanupCalls ++ [c1] }, none) := by
    unfold applyPreviewScript
    rw [hteard, hcss, h2]
    have ha2 : attachStyle
        ({ styles := s.styles
           previews := aerase s.previews id
           nextElId := s.nextElId + 1
           cleanupCalls := s.cleanupCalls ++ [c1] } : PPState) id (some c) =
        ({ styles := s.styles ++ [⟨s.nextElId + 1, id, c⟩]
           previews := aerase s.previews id
           nextElId := s.nextElId + 2
           cleanupCalls := s.cleanupCalls ++ [c1] }, some (s.nextElId + 1)) := by
      simp [attachStyle, hc]
    simp only [ha2]
  rw [happ1]
  simp only []
  rw [happ2]
  refine ⟨?_, ?_, ?_, rfl, rfl⟩
  · show taggedStyles (s.styles ++ [⟨s.nextElId + 1, id, c⟩]) id = [⟨s.nextElId + 1, id, c⟩]
    rw [taggedStyles_append, howned]
    simp [taggedStyles]
  · show ((ainsert (aerase s.previews id) id
      (⟨id, selector, cl2, some (s.nextElId + 1)⟩ : PreviewEntry)).filter
        (fun p => p.1 == id)).length = 1
    simp only [ainsert, List.filter_cons, beq_self_eq_true, if_pos]
    rw [filter_aerase]
    rfl
  · exact alookup_ainsert_self _ id _

/-- Claim C4 witness: two successive applies of the same id on an empty
document. -/
theorem claim_C4_apply_idempotent_witness :
    taggedStyles (applyPreviewScript (applyPreviewScript PPState.empty "p1" ".btn"
        ⟨"doIt()", some ".x", none⟩ ⟨some 11, .ok none⟩).1
        "p1" ".btn" ⟨"doIt()", some ".x", none⟩ ⟨none, .ok (some 22)⟩).1.styles "p1" =
      [⟨1, "p1", ".x"⟩] ∧
    ((applyPreviewScript (applyPreviewScript PPState.empty "p1" ".btn"
        ⟨"doIt()", some ".x", none⟩ ⟨some 11, .ok none⟩).1
        "p1" ".btn" ⟨"doIt()", some ".x", none⟩
        ⟨none, .ok (some 22)⟩).1.previews.filter (fun p => p.1 == "p1")).length = 1 ∧
    alookup (applyPreviewScript (applyPreviewScript PPState.empty "p1" ".btn"
        ⟨"doIt()", some ".x", none⟩ ⟨some 11, .ok none⟩).1
        "p1" ".btn" ⟨"doIt()", some ".x", none⟩ ⟨none, .ok (some 22)⟩).1.previews "p1" =
      some ⟨"p1", ".btn", some 22, some 1⟩ ∧
    (applyPreviewScript (applyPreviewScript PPState.empty "p1" ".btn"
        ⟨"doIt()", some ".x", none⟩ ⟨some 11, .ok none⟩).1
        "p1" ".btn" ⟨"doIt()", some ".x", none⟩
        ⟨none, .ok (some 22)⟩).1.cleanupCalls = [] ++ [11] ∧
    (applyPreviewScript (applyPreviewScript PPState.empty "p1" ".btn"
        ⟨"doIt()", some ".x", none⟩ ⟨some 11, .ok none⟩).1
        "p1" ".btn" ⟨"doIt()", some ".x", none⟩ ⟨none, .ok (some 22)⟩).2 = none :=
  claim_C4_apply_idempotent PPState.empty "p1" ".btn"
    ⟨"doIt()", some ".x", none⟩ ⟨some 11, .ok none⟩ ⟨none, .ok (some 22)⟩
    ".x" 11 (some 22) rfl (by decide) (fun _ h => nomatch h) rfl rfl rfl rfl

end PagePilot
